import Mathlib

/-!
Shallow embedding of the Beat-Synchronized Deck Rotation & Warmup Engine
from `src/app/page.tsx` of Operation Desert Haze.

The source is a single React component; all engine state lives in refs
(plain mutable cells) and all mutation happens on one logical thread, so
the embedding is explicit state passing over an `EngineState` record.
`Math.random()` is modelled as a rational parameter `r` with `0 ≤ r < 1`;
timer callbacks (the warmup poll interval and the safety timeout) are
modelled as explicit step functions invoked on a state, with freshness of
timer ids provided by a counter field.
-/

namespace DesertHaze

/-- The four deck identities, `type DeckId = "A" | "B" | "C" | "D"`. -/
inductive DeckId where
  | A | B | C | D
deriving DecidableEq, Repr, Fintype

/-- `const DECK_ORDER: DeckId[] = ["A", "B", "C", "D"]`. -/
def DECK_ORDER : List DeckId := [.A, .B, .C, .D]

/-- `type WarmupPhase = "idle" | "loading" | "seeking" | "ready"`. -/
inductive WarmupPhase where
  | idle | loading | seeking | ready
deriving DecidableEq, Repr, Fintype

/-- The static video catalog `VIDEO_MANIFEST` (18 YouTube ids). -/
def VIDEO_MANIFEST : List String :=
  [ "oMBgBMWyHVk", "OToBXEuYvmo", "uHpDotOdJbw", "BDbI9fK7OG4", "FszR_WlWdQI",
    "8b5rIFci5vs", "BC_ddF8IQGA", "XdfB9qnPFcI", "rwuF_N1gmlw", "RhpgCaPoBaE",
    "_PrU5XD2Ypo", "7lrfdzU8k4k", "Chqe2SiWsZE", "7aEYkZjTBag", "n3k60lUzM6c",
    "dxEjSr6rYXU", "V1BbHRysLjw", "NX-xfAKWDIo" ]

/-- `const SKIP_SECONDS = 3`. -/
def SKIP_SECONDS : ℚ := 3

/-- `window.YT.PlayerState.PLAYING` (the YouTube iframe API constant `1`). -/
def PLAYING_STATE : ℤ := 1

/-- `Math.floor(r * n)` turned into a list index, for `r ∈ [0,1)`. -/
def randIndex (r : ℚ) (n : ℕ) : ℕ := (Int.floor (r * n)).toNat

/-- The filter inside `getRandomVideoId`:
`VIDEO_MANIFEST.filter((id) => id !== exclude && !failed.has(id))`.
`exclude : Option String` models the `string | undefined` parameter. -/
def availableVideos (failed : List String) (exclude : Option String) : List String :=
  VIDEO_MANIFEST.filter (fun id => (some id != exclude) && !(failed.contains id))

/-- `getRandomVideoId(exclude?)` from `page.tsx` lines 250-258.  The mutable
`failedVideosRef` set is passed in and returned (it is cleared when the
available pool is empty).  Returns the chosen id and the updated failed set. -/
def getRandomVideoId (failed : List String) (exclude : Option String) (r : ℚ) :
    String × List String :=
  let available := availableVideos failed exclude
  if available.length = 0 then
    (VIDEO_MANIFEST.getD (randIndex r VIDEO_MANIFEST.length) "", [])
  else
    (available.getD (randIndex r available.length) "", failed)

lemma randIndex_lt {r : ℚ} {n : ℕ} (h0 : 0 ≤ r) (h1 : r < 1) (hn : 0 < n) :
    randIndex r n < n := by
  have hcast : (0:ℚ) < (n:ℚ) := by exact_mod_cast hn
  have hmul : r * (n:ℚ) < (n:ℚ) := by nlinarith
  have hfl : Int.floor (r * (n:ℚ)) < (n:ℤ) := by
    rw [Int.floor_lt]
    exact_mod_cast hmul
  have hnn : 0 ≤ Int.floor (r * (n:ℚ)) := Int.floor_nonneg.mpr (by positivity)
  unfold randIndex
  omega

lemma getD_mem_of_lt {l : List String} {i : ℕ} (h : i < l.length) (d : String) :
    l.getD i d ∈ l := by
  rw [List.getD_eq_getElem l d h]
  exact List.getElem_mem h

lemma getD_mem_rand {l : List String} {r : ℚ} (h0 : 0 ≤ r) (h1 : r < 1)
    (hne : l ≠ []) (d : String) : l.getD (randIndex r l.length) d ∈ l := by
  have hlen : 0 < l.length := List.length_pos.mpr hne
  exact getD_mem_of_lt (randIndex_lt h0 h1 hlen) d

lemma mem_availableVideos {failed : List String} {exclude : Option String} {v : String}
    (h : v ∈ availableVideos failed exclude) :
    v ∈ VIDEO_MANIFEST ∧ some v ≠ exclude ∧ v ∉ failed := by
  unfold availableVideos at h
  rw [List.mem_filter] at h
  obtain ⟨hmem, hcond⟩ := h
  simp only [Bool.and_eq_true, bne_iff_ne, Bool.not_eq_true', List.contains,
    List.elem_eq_mem, decide_eq_false_iff_not] at hcond
  exact ⟨hmem, hcond.1, hcond.2⟩

lemma getRandomVideoId_cases (failed : List String) (exclude : Option String)
    (r : ℚ) (h0 : 0 ≤ r) (h1 : r < 1) :
    (getRandomVideoId failed exclude r).1 ∈ VIDEO_MANIFEST ∧
    (availableVideos failed exclude ≠ [] →
      (getRandomVideoId failed exclude r).1 ∈ availableVideos failed exclude ∧
      (getRandomVideoId failed exclude r).1 ∉ failed ∧
      some (getRandomVideoId failed exclude r).1 ≠ exclude ∧
      (getRandomVideoId failed exclude r).2 = failed) ∧
    (availableVideos failed exclude = [] →
      (getRandomVideoId failed exclude r).2 = []) := by
  by_cases hav : availableVideos failed exclude = []
  · have hres : getRandomVideoId failed exclude r =
        (VIDEO_MANIFEST.getD (randIndex r VIDEO_MANIFEST.length) "", []) := by
      simp [getRandomVideoId, hav]
    refine ⟨?_, fun hc => absurd hav hc, fun _ => by rw [hres]⟩
    rw [hres]
    exact getD_mem_rand h0 h1 (by decide) ""
  · have hlen : ¬ (availableVideos failed exclude).length = 0 := by
      simpa [List.length_eq_zero] using hav
    have hres : getRandomVideoId failed exclude r =
        ((availableVideos failed exclude).getD
          (randIndex r (availableVideos failed exclude).length) "", failed) := by
      simp [getRandomVideoId, hlen]
    have hmem : (availableVideos failed exclude).getD
        (randIndex r (availableVideos failed exclude).length) "" ∈
        availableVideos failed exclude := getD_mem_rand h0 h1 hav ""
    have hprops := mem_availableVideos hmem
    refine ⟨?_, fun _ => ?_, fun hc => absurd hc hav⟩
    · rw [hres]; exact hprops.1
    · rw [hres]; exact ⟨hmem, hprops.2.2, hprops.2.1, rfl⟩

/-- C2: if `catalog − exclusionSet − {excludeId}` is non-empty, the selector
returns a member of that set (so never an excluded id, never `excludeId`)
and leaves the exclusion set untouched; if it is empty, the exclusion set is
cleared and some member of the full catalog is returned; in all cases the
result is a catalog member (never undefined). -/
theorem getRandomVideoId_spec (failed : List String) (exclude : Option String)
    (r : ℚ) (h0 : 0 ≤ r) (h1 : r < 1) :
    (getRandomVideoId failed exclude r).1 ∈ VIDEO_MANIFEST ∧
    (availableVideos failed exclude ≠ [] →
      (getRandomVideoId failed exclude r).1 ∈ availableVideos failed exclude ∧
      (getRandomVideoId failed exclude r).1 ∉ failed ∧
      some (getRandomVideoId failed exclude r).1 ≠ exclude ∧
      (getRandomVideoId failed exclude r).2 = failed) ∧
    (availableVideos failed exclude = [] →
      (getRandomVideoId failed exclude r).2 = []) :=
  getRandomVideoId_cases failed exclude r h0 h1

/-- C2 witness: concrete instantiation at `failed = []`, no exclusion, `r = 0`. -/
theorem getRandomVideoId_spec_witness :
    (getRandomVideoId [] none 0).1 ∈ VIDEO_MANIFEST := by
  exact (getRandomVideoId_spec [] none 0 (by norm_num) (by norm_num)).1

/-- A live warmup poll interval for one deck: the interval id allocated at
`setInterval` together with the `shouldPause` flag captured by its closure. -/
structure Poll where
  id : ℕ
  shouldPause : Bool
deriving DecidableEq, Repr

/-- The engine's mutable state: every ref of the component that the rotation,
warmup, selection and failure-recovery paths read or write, plus the local
`lastTime` variable of the rAF tick closure.  `pendingTimeouts` holds, per
armed safety timeout that has not yet fired, the deck and the poll id its
callback captured; `nextTimerId` supplies fresh interval ids. -/
structure EngineState where
  activeDeck : DeckId
  paused : Bool
  beatMap : List ℚ
  currentBeatIndex : ℕ
  lastTime : ℚ
  currentVideoId : String
  deckVideo : DeckId → String
  failed : List String
  warmupPhase : DeckId → WarmupPhase
  warmupPoll : DeckId → Option Poll
  seekTarget : DeckId → Option ℚ
  pendingTimeouts : List (DeckId × ℕ)
  nextTimerId : ℕ
  players : DeckId → Bool

/-- Write one deck's slot of a per-deck record, `ref.current[deckId] = v`. -/
def updDeck {α : Type} (f : DeckId → α) (d : DeckId) (v : α) : DeckId → α :=
  fun e => if e = d then v else f e

/-- `warmupDeck(deckId, player, shouldPause)` lines 260-305: clears the
deck's previous poll interval, sets phase to `loading`, issues play+mute on
the port, arms a fresh poll interval (storing it in `warmupPollRef`) and an
uncancelled safety timeout capturing the fresh poll id. -/
def warmupDeck (d : DeckId) (shouldPause : Bool) (s : EngineState) : EngineState :=
  let pid := s.nextTimerId
  { s with
    warmupPhase := updDeck s.warmupPhase d .loading,
    warmupPoll := updDeck s.warmupPoll d (some ⟨pid, shouldPause⟩),
    pendingTimeouts := s.pendingTimeouts ++ [(d, pid)],
    nextTimerId := pid + 1 }

/-- The randomized seek offset computed in the `loading` branch of the poll,
lines 277-280: `safeEnd = max(skip+1, duration-skip)`,
`randomStart = skip + r*(safeEnd-skip-5)`, seek to `max(skip, randomStart)`. -/
def seekOffset (duration r : ℚ) : ℚ :=
  let safeStart := SKIP_SECONDS
  let safeEnd := max (safeStart + 1) (duration - SKIP_SECONDS)
  let randomStart := safeStart + r * (safeEnd - safeStart - 5)
  max safeStart randomStart

/-- One observation the poll body makes of the PlaybackPort: either the pair
`(getPlayerState(), getDuration())`, or an exception raised by the port. -/
inductive PortObs where
  | ok (state : ℤ) (duration : ℚ)
  | exn
deriving DecidableEq, Repr

/-- One firing of deck `d`'s warmup poll interval body (lines 270-293).  The
body only runs while the interval is live, i.e. while `warmupPollRef` holds
it; `r` is the `Math.random()` sample consumed if a seek is issued. -/
def pollStep (d : DeckId) (obs : PortObs) (r : ℚ) (s : EngineState) : EngineState :=
  match s.warmupPoll d with
  | none => s
  | some _ =>
    match obs with
    | .exn =>
        { s with
          warmupPoll := updDeck s.warmupPoll d none,
          warmupPhase := updDeck s.warmupPhase d .ready }
    | .ok st dur =>
        if s.warmupPhase d = .loading ∧ st = PLAYING_STATE ∧ 0 < dur then
          { s with
            seekTarget := updDeck s.seekTarget d (some (seekOffset dur r)),
            warmupPhase := updDeck s.warmupPhase d .seeking }
        else if s.warmupPhase d = .seeking ∧ st = PLAYING_STATE then
          { s with
            warmupPhase := updDeck s.warmupPhase d .ready,
            warmupPoll := updDeck s.warmupPoll d none }
        else s

/-- One firing of a safety-timeout callback armed for deck `d` with captured
poll id `pid` (lines 298-304): the timeout leaves the pending list, and only
if `warmupPollRef` still holds exactly that poll does it clear the poll and
force phase `ready`. -/
def timeoutFire (d : DeckId) (pid : ℕ) (s : EngineState) : EngineState :=
  let s0 := { s with pendingTimeouts := s.pendingTimeouts.erase (d, pid) }
  match s.warmupPoll d with
  | some p =>
      if p.id = pid then
        { s0 with
          warmupPoll := updDeck s0.warmupPoll d none,
          warmupPhase := updDeck s0.warmupPhase d .ready }
      else s0
  | none => s0

/-- `loadVideoOnDeck(deckId, videoId, shouldPause = true)` lines 307-320:
records the new id in `deckVideoRef`, then tries `loadVideoById` + `mute` +
`warmupDeck`; an exception from the port's load call (`loadThrows`) is
caught after the id was already recorded and before warmup starts. -/
def loadVideoOnDeck (d : DeckId) (videoId : String) (shouldPause : Bool)
    (loadThrows : Bool) (s : EngineState) : EngineState :=
  if s.players d = false then s
  else
    let s1 := { s with deckVideo := updDeck s.deckVideo d videoId }
    if loadThrows then s1
    else warmupDeck d shouldPause s1

/-- `failedVideosRef.current.add(v)` (JS `Set.add`). -/
def insertFailed (failed : List String) (v : String) : List String :=
  if failed.contains v then failed else failed ++ [v]

/-- `handlePlayerError(deckId)` lines 322-330: add the deck's last assigned
id to the failed set (if truthy), pick a replacement excluding it, record it
and reload the deck via `loadVideoOnDeck` with its default `shouldPause`. -/
def handlePlayerError (d : DeckId) (r : ℚ) (loadThrows : Bool)
    (s : EngineState) : EngineState :=
  let failedVid := s.deckVideo d
  let s1 := if failedVid ≠ "" then { s with failed := insertFailed s.failed failedVid }
            else s
  let pr := getRandomVideoId s1.failed (some failedVid) r
  let s2 := { s1 with failed := pr.2, deckVideo := updDeck s1.deckVideo d pr.1 }
  loadVideoOnDeck d pr.1 true loadThrows s2

/-- `DECK_ORDER[(DECK_ORDER.indexOf(currentDeckId) + 1) % 4]` line 454. -/
def ringNext (d : DeckId) : DeckId :=
  DECK_ORDER.getD ((DECK_ORDER.indexOf d + 1) % 4) .A

/-- The beat-crossing block of the tick, lines 449-477: if the cursor is in
range and the clock has reached the beat timestamp, promote the ring
successor, recycle the vacated deck with a fresh id (excluding its current
one) via `loadVideoOnDeck` (default `shouldPause = true`) and advance the
cursor by exactly 1; otherwise leave the state alone. -/
def tickCross (t r : ℚ) (loadThrows : Bool) (s : EngineState) : EngineState :=
  let beats := s.beatMap
  let idx := s.currentBeatIndex
  if idx < beats.length ∧ beats.getD idx 0 ≤ t then
    let currentDeckId := s.activeDeck
    let nextDeckId := ringNext currentDeckId
    let s3 := { s with activeDeck := nextDeckId }
    let pr := getRandomVideoId s3.failed (some (s3.deckVideo currentDeckId)) r
    let s4 := { s3 with failed := pr.2, currentVideoId := pr.1 }
    let s5 := loadVideoOnDeck currentDeckId pr.1 true loadThrows s4
    { s5 with currentBeatIndex := idx + 1 }
  else s

/-- One non-visual iteration of the rAF `tick` closure, lines 433-478:
paused guard, loop detection against `lastTime` (reset the cursor when the
clock wrapped from above 10 to below 5), record `lastTime := t`, then the
beat-crossing block.  `t` is `audio.currentTime`, `r` the `Math.random()`
sample consumed on a crossing, `loadThrows` whether the port's load call
throws during the recycle. -/
def tick (t r : ℚ) (loadThrows : Bool) (s : EngineState) : EngineState :=
  if s.paused then s
  else
    let s1 := if s.lastTime > 10 ∧ t < 5 then { s with currentBeatIndex := 0 } else s
    tickCross t r loadThrows { s1 with lastTime := t }

/-- Fold the tick over a list of samples `(currentTime, r, loadThrows)`. -/
def runTicks (samples : List (ℚ × ℚ × Bool)) (s : EngineState) : EngineState :=
  List.foldl (fun st x => tick x.1 x.2.1 x.2.2 st) s samples

/-- A neutral starting state (all decks idle, nothing failed, empty map). -/
def initState : EngineState :=
  { activeDeck := .A
    paused := false
    beatMap := []
    currentBeatIndex := 0
    lastTime := 0
    currentVideoId := ""
    deckVideo := fun _ => ""
    failed := []
    warmupPhase := fun _ => .idle
    warmupPoll := fun _ => none
    seekTarget := fun _ => none
    pendingTimeouts := []
    nextTimerId := 0
    players := fun _ => true }

/-- Live timers belonging to deck `d`: its live poll interval (if any) plus
every armed safety timeout for `d` that has not yet fired. -/
def liveTimerCount (s : EngineState) (d : DeckId) : ℕ :=
  (if (s.warmupPoll d).isSome then 1 else 0) +
    (s.pendingTimeouts.filter (fun x => x.1 = d)).length

section Lemmas

lemma updDeck_same {α : Type} (f : DeckId → α) (d : DeckId) (v : α) :
    updDeck f d v d = v := by simp [updDeck]

lemma updDeck_other {α : Type} (f : DeckId → α) (d e : DeckId) (v : α)
    (h : e ≠ d) : updDeck f d v e = f e := by simp [updDeck, h]

lemma loadVideoOnDeck_preserves (d : DeckId) (v : String) (sp b : Bool)
    (s : EngineState) :
    (loadVideoOnDeck d v sp b s).activeDeck = s.activeDeck ∧
    (loadVideoOnDeck d v sp b s).currentBeatIndex = s.currentBeatIndex ∧
    (loadVideoOnDeck d v sp b s).beatMap = s.beatMap ∧
    (loadVideoOnDeck d v sp b s).lastTime = s.lastTime ∧
    (loadVideoOnDeck d v sp b s).paused = s.paused ∧
    (loadVideoOnDeck d v sp b s).failed = s.failed := by
  unfold loadVideoOnDeck warmupDeck
  split
  · exact ⟨rfl, rfl, rfl, rfl, rfl, rfl⟩
  · dsimp only
    split
    · exact ⟨rfl, rfl, rfl, rfl, rfl, rfl⟩
    · exact ⟨rfl, rfl, rfl, rfl, rfl, rfl⟩

lemma tickCross_of_cross (t r : ℚ) (b : Bool) (s : EngineState)
    (h : s.currentBeatIndex < s.beatMap.length ∧
      s.beatMap.getD s.currentBeatIndex 0 ≤ t) :
    (tickCross t r b s).activeDeck = ringNext s.activeDeck ∧
    (tickCross t r b s).currentBeatIndex = s.currentBeatIndex + 1 := by
  unfold tickCross
  dsimp only
  rw [if_pos h]
  constructor
  · exact (loadVideoOnDeck_preserves _ _ _ _ _).1
  · rfl

lemma tickCross_currentBeatIndex (t r : ℚ) (b : Bool) (s : EngineState) :
    (tickCross t r b s).currentBeatIndex = s.currentBeatIndex ∨
    (tickCross t r b s).currentBeatIndex = s.currentBeatIndex + 1 := by
  unfold tickCross
  dsimp only
  split
  · right; rfl
  · left; rfl

lemma tick_eq (t r : ℚ) (b : Bool) (s : EngineState) (hp : s.paused = false) :
    tick t r b s = tickCross t r b
      { (if s.lastTime > 10 ∧ t < 5 then { s with currentBeatIndex := 0 } else s)
        with lastTime := t } := by
  unfold tick
  rw [if_neg (by simp [hp])]

end Lemmas

/-- C1: on every beat crossing processed by the tick (post-loop-reset cursor
in range and clock at or past the beat timestamp), the active deck advances
exactly one ring position and the cursor advances exactly by 1 — a single
tick never collapses several passed timestamps into more than one step —
and four iterated ring steps visit every deck identity exactly once before
returning to the start. -/
theorem tick_advances_one_ring_step (s : EngineState) (t r : ℚ) (b : Bool)
    (hp : s.paused = false)
    (hidx : (if s.lastTime > 10 ∧ t < 5 then 0 else s.currentBeatIndex) <
      s.beatMap.length)
    (hbeat : s.beatMap.getD
      (if s.lastTime > 10 ∧ t < 5 then 0 else s.currentBeatIndex) 0 ≤ t) :
    (tick t r b s).activeDeck = ringNext s.activeDeck ∧
    (tick t r b s).currentBeatIndex =
      (if s.lastTime > 10 ∧ t < 5 then 0 else s.currentBeatIndex) + 1 ∧
    (∀ d : DeckId,
      [d, ringNext d, ringNext (ringNext d),
        ringNext (ringNext (ringNext d))].Nodup ∧
      ringNext (ringNext (ringNext (ringNext d))) = d) := by
  rw [tick_eq t r b s hp]
  by_cases hw : s.lastTime > 10 ∧ t < 5
  · simp only [if_pos hw] at hidx hbeat ⊢
    have hcross := tickCross_of_cross t r b
      { { s with currentBeatIndex := 0 } with lastTime := t } ⟨hidx, hbeat⟩
    refine ⟨?_, ?_, by decide⟩
    · simpa using hcross.1
    · simpa using hcross.2
  · simp only [if_neg hw] at hidx hbeat ⊢
    have hcross := tickCross_of_cross t r b
      { s with lastTime := t } ⟨hidx, hbeat⟩
    refine ⟨?_, ?_, by decide⟩
    · simpa using hcross.1
    · simpa using hcross.2

/-- A concrete state for exercising the rotation tick: beat map `[2, 5, 9]`. -/
def rotState : EngineState := { initState with beatMap := [2, 5, 9] }

/-- C1 witness: at `rotState` with the clock at the first beat timestamp,
the tick promotes the ring successor and advances the cursor to 1. -/
theorem tick_advances_one_ring_step_witness :
    (tick 2 0 false rotState).activeDeck = ringNext rotState.activeDeck ∧
    (tick 2 0 false rotState).currentBeatIndex =
      (if rotState.lastTime > 10 ∧ (2:ℚ) < 5 then 0
       else rotState.currentBeatIndex) + 1 ∧
    (∀ d : DeckId,
      [d, ringNext d, ringNext (ringNext d),
        ringNext (ringNext (ringNext d))].Nodup ∧
      ringNext (ringNext (ringNext (ringNext d))) = d) :=
  tick_advances_one_ring_step rotState 2 0 false rfl (by decide) (by decide)

section LoopAndIdle

lemma tick_empty (t r : ℚ) (b : Bool) (s : EngineState)
    (hmap : s.beatMap = []) (h0 : s.currentBeatIndex = 0) :
    tick t r b s = if s.paused = true then s else { s with lastTime := t } := by
  by_cases hp : s.paused = true
  · rw [if_pos hp]
    unfold tick
    rw [if_pos hp]
  · rw [if_neg hp, tick_eq t r b s (by simpa using hp)]
    have hs1 : (if s.lastTime > 10 ∧ t < 5 then { s with currentBeatIndex := 0 }
        else s) = s := by
      rw [← h0]
      simp
    rw [hs1]
    unfold tickCross
    dsimp only
    rw [if_neg (by simp [hmap])]

lemma runTicks_empty (samples : List (ℚ × ℚ × Bool)) (s : EngineState)
    (hmap : s.beatMap = []) (h0 : s.currentBeatIndex = 0) :
    ∃ lt, runTicks samples s = { s with lastTime := lt } := by
  induction samples generalizing s with
  | nil => exact ⟨s.lastTime, rfl⟩
  | cons x xs ih =>
      have hstep : tick x.1 x.2.1 x.2.2 s =
          if s.paused = true then s else { s with lastTime := x.1 } :=
        tick_empty x.1 x.2.1 x.2.2 s hmap h0
      by_cases hp : s.paused = true
      · rw [if_pos hp] at hstep
        have hrun : runTicks (x :: xs) s = runTicks xs s := by
          unfold runTicks
          rw [List.foldl_cons, hstep]
        rw [hrun]
        exact ih s hmap h0
      · rw [if_neg hp] at hstep
        have hrun : runTicks (x :: xs) s = runTicks xs { s with lastTime := x.1 } := by
          unfold runTicks
          rw [List.foldl_cons, hstep]
        rw [hrun]
        obtain ⟨lt, hlt⟩ := ih { s with lastTime := x.1 } hmap h0
        exact ⟨lt, hlt⟩

end LoopAndIdle

/-- C8: with an empty beat map, no sequence of ticks ever produces a beat
crossing — the active deck never changes, no deck is recycled (videos,
warmup phases and polls are all untouched), the failed set is untouched and
the beat cursor stays at 0 for every sequence of clock samples. -/
theorem empty_beatMap_idles (s : EngineState) (samples : List (ℚ × ℚ × Bool))
    (hmap : s.beatMap = []) (h0 : s.currentBeatIndex = 0) :
    (runTicks samples s).activeDeck = s.activeDeck ∧
    (runTicks samples s).currentBeatIndex = 0 ∧
    (runTicks samples s).failed = s.failed ∧
    (∀ d : DeckId, (runTicks samples s).deckVideo d = s.deckVideo d ∧
      (runTicks samples s).warmupPhase d = s.warmupPhase d ∧
      (runTicks samples s).warmupPoll d = s.warmupPoll d) := by
  obtain ⟨lt, hlt⟩ := runTicks_empty samples s hmap h0
  rw [hlt]
  exact ⟨rfl, h0, rfl, fun d => ⟨rfl, rfl, rfl⟩⟩

/-- C8 witness: a concrete clock sequence over the empty beat map at the
initial state leaves deck A active and the cursor at 0. -/
theorem empty_beatMap_idles_witness :
    (runTicks [(3, 0, false), (20, 0, false), (1, 0, false)] initState).activeDeck =
      initState.activeDeck ∧
    (runTicks [(3, 0, false), (20, 0, false), (1, 0, false)] initState).currentBeatIndex = 0 ∧
    (runTicks [(3, 0, false), (20, 0, false), (1, 0, false)] initState).failed =
      initState.failed ∧
    (∀ d : DeckId,
      (runTicks [(3, 0, false), (20, 0, false), (1, 0, false)] initState).deckVideo d =
        initState.deckVideo d ∧
      (runTicks [(3, 0, false), (20, 0, false), (1, 0, false)] initState).warmupPhase d =
        initState.warmupPhase d ∧
      (runTicks [(3, 0, false), (20, 0, false), (1, 0, false)] initState).warmupPoll d =
        initState.warmupPoll d) :=
  empty_beatMap_idles initState [(3, 0, false), (20, 0, false), (1, 0, false)] rfl rfl

/-- A state mid-run for the loop-detection scenario: beat map `[2, 5, 9]`
fully crossed (cursor 3), previous clock sample 117. -/
def loopState : EngineState :=
  { initState with beatMap := [2, 5, 9], currentBeatIndex := 3, lastTime := 117 }

/-- C7: the tick resets the beat cursor exactly at a sample where the clock
is observed to wrap from high (> 10) to low (< 5): on a wrap tick the
cursor ends at 0 (or 1 if the reset is immediately followed by a crossing),
on any non-wrap non-paused tick it never decreases, and on the spec's
sample trace `[118, 119, 0.2]` the cursor (starting at 3) resets exactly at
the `0.2` sample. -/
theorem loop_reset_exactly_on_wrap :
    (∀ (s : EngineState) (t r : ℚ) (b : Bool), s.paused = false →
      s.lastTime > 10 → t < 5 → (tick t r b s).currentBeatIndex ≤ 1) ∧
    (∀ (s : EngineState) (t r : ℚ) (b : Bool), s.paused = false →
      ¬ (s.lastTime > 10 ∧ t < 5) →
      s.currentBeatIndex ≤ (tick t r b s).currentBeatIndex) ∧
    ((runTicks [(118, 0, false)] loopState).currentBeatIndex = 3 ∧
     (runTicks [(118, 0, false), (119, 0, false)] loopState).currentBeatIndex = 3 ∧
     (runTicks [(118, 0, false), (119, 0, false), (mkRat 1 5, 0, false)]
        loopState).currentBeatIndex = 0) := by
  refine ⟨?_, ?_, by decide⟩
  · intro s t r b hp hlast ht
    rw [tick_eq t r b s hp]
    have hw : s.lastTime > 10 ∧ t < 5 := ⟨hlast, ht⟩
    simp only [if_pos hw]
    rcases tickCross_currentBeatIndex t r b
        { { s with currentBeatIndex := 0 } with lastTime := t } with h | h
    · rw [h]; exact Nat.zero_le 1
    · rw [h]
  · intro s t r b hp hw
    rw [tick_eq t r b s hp]
    simp only [if_neg hw]
    rcases tickCross_currentBeatIndex t r b { s with lastTime := t } with h | h
    · rw [h]
    · rw [h]; exact Nat.le_succ _

/-- C7 witness: a concrete wrap tick (previous sample 117, current 1) ends
with the cursor at most 1. -/
theorem loop_reset_exactly_on_wrap_witness :
    (tick 1 0 false loopState).currentBeatIndex ≤ 1 :=
  loop_reset_exactly_on_wrap.1 loopState 1 0 false rfl (by norm_num [loopState, initState])
    (by norm_num)

/-- Iterate deck `d`'s poll body over a list of port observations (each with
the `Math.random()` sample it would consume). -/
def pollSteps (d : DeckId) (obs : List (PortObs × ℚ)) (s : EngineState) : EngineState :=
  List.foldl (fun st x => pollStep d x.1 x.2 st) s obs

section PollLemmas

lemma pollStep_invariant (d : DeckId) (p : Poll) (ob : PortObs) (r : ℚ)
    (s : EngineState)
    (h : s.warmupPoll d = some p ∨ s.warmupPhase d = .ready) :
    (pollStep d ob r s).warmupPoll d = some p ∨
    (pollStep d ob r s).warmupPhase d = .ready := by
  unfold pollStep
  cases hpoll : s.warmupPoll d with
  | none =>
      rcases h with h | h
      · rw [hpoll] at h; exact absurd h (by simp)
      · exact Or.inr h
  | some q =>
      cases ob with
      | exn => exact Or.inr (by simp [updDeck_same])
      | ok st dur =>
          dsimp only
          split
          · rcases h with h | h
            · exact Or.inl (by simpa [hpoll] using h)
            · rename_i hcond
              rw [hcond.1] at h
              exact absurd h (by simp)
          · split
            · exact Or.inr (by simp [updDeck_same])
            · rcases h with h | h
              · exact Or.inl h
              · exact Or.inr h

lemma pollSteps_invariant (d : DeckId) (p : Poll) (obs : List (PortObs × ℚ))
    (s : EngineState)
    (h : s.warmupPoll d = some p ∨ s.warmupPhase d = .ready) :
    (pollSteps d obs s).warmupPoll d = some p ∨
    (pollSteps d obs s).warmupPhase d = .ready := by
  induction obs generalizing s with
  | nil => exact h
  | cons x xs ih =>
      have hstep := pollStep_invariant d p x.1 x.2 s h
      have hfold : pollSteps d (x :: xs) s = pollSteps d xs (pollStep d x.1 x.2 s) := by
        unfold pollSteps
        rw [List.foldl_cons]
      rw [hfold]
      exact ih (pollStep d x.1 x.2 s) hstep

lemma timeoutFire_ready (d : DeckId) (pid : ℕ) (s : EngineState)
    (h : (∃ sp, s.warmupPoll d = some ⟨pid, sp⟩) ∨ s.warmupPhase d = .ready) :
    (timeoutFire d pid s).warmupPhase d = .ready := by
  unfold timeoutFire
  cases hpoll : s.warmupPoll d with
  | none =>
      rcases h with ⟨sp, hsp⟩ | h
      · rw [hpoll] at hsp; exact absurd hsp (by simp)
      · exact h
  | some q =>
      dsimp only
      by_cases hq : q.id = pid
      · rw [if_pos hq]
        simp [updDeck_same]
      · rw [if_neg hq]
        rcases h with ⟨sp, hsp⟩ | h
        · rw [hpoll, Option.some_inj] at hsp
          exact absurd (by rw [hsp]) hq
        · exact h

end PollLemmas

/-- C6: (a) the poll never skips `seeking`: from phase `loading`, one poll
step over a normal port observation leaves the phase at `loading` or moves
it to `seeking`, never directly to `ready`, however fast the port's state
changed; (b) after a warmup is started, whatever poll observations follow,
when that warmup's safety timeout fires the deck's phase is `ready` — a
deck is never still `loading` (or `seeking`) once the timeout bound has
elapsed. -/
theorem warmup_phase_order :
    (∀ (s : EngineState) (d : DeckId) (st : ℤ) (dur r : ℚ),
      s.warmupPhase d = .loading →
      (pollStep d (.ok st dur) r s).warmupPhase d = .loading ∨
      (pollStep d (.ok st dur) r s).warmupPhase d = .seeking) ∧
    (∀ (s : EngineState) (d : DeckId) (sp : Bool) (obs : List (PortObs × ℚ)),
      (timeoutFire d s.nextTimerId
        (pollSteps d obs (warmupDeck d sp s))).warmupPhase d = .ready) := by
  constructor
  · intro s d st dur r hload
    unfold pollStep
    cases hpoll : s.warmupPoll d with
    | none => exact Or.inl hload
    | some q =>
        dsimp only
        split
        · exact Or.inr (by simp [updDeck_same])
        · split
          · rename_i hcond
            rw [hcond.1] at hload
            exact absurd hload (by simp)
          · exact Or.inl hload
  · intro s d sp obs
    apply timeoutFire_ready
    have hstart : (warmupDeck d sp s).warmupPoll d = some ⟨s.nextTimerId, sp⟩ := by
      simp [warmupDeck, updDeck_same]
    have hinv := pollSteps_invariant d ⟨s.nextTimerId, sp⟩ obs (warmupDeck d sp s)
      (Or.inl hstart)
    rcases hinv with h | h
    · exact Or.inl ⟨sp, h⟩
    · exact Or.inr h

/-- A deck mid-load for exercising the poll: deck A has a live poll and is
in phase `loading`. -/
def pollState : EngineState :=
  { initState with
    warmupPhase := fun _ => .loading
    warmupPoll := fun _ => some ⟨0, true⟩
    nextTimerId := 1 }

/-- C6 witness: from `loading` at a concrete state, a playing observation
with positive duration moves phase to `loading` or `seeking` (never
straight to `ready`). -/
theorem warmup_phase_order_witness :
    (pollStep .A (.ok 1 10) 0 pollState).warmupPhase .A = .loading ∨
    (pollStep .A (.ok 1 10) 0 pollState).warmupPhase .A = .seeking :=
  warmup_phase_order.1 pollState .A 1 10 0 rfl

/-- The state after two consecutive warmups of deck A from the idle initial
state: the first warmup's poll was cancelled and replaced, but its safety
timeout is still pending. -/
def doubleWarmupState : EngineState :=
  warmupDeck .A false (warmupDeck .A true initState)

/-- C9 counterexample: starting a new warmup does NOT cancel the previous
safety timeout — after two warmups of deck A, the first warmup's timeout
(poll id 0) is still pending, and deck A has three live timers (one poll
interval plus two pending timeouts), refuting "at most one live timer
(poll interval or pending safety timeout) per deck at any instant". -/
theorem warmup_leaves_stale_timeout_cex :
    (DeckId.A, 0) ∈ doubleWarmupState.pendingTimeouts ∧
    liveTimerCount doubleWarmupState .A = 3 ∧
    ¬ (liveTimerCount doubleWarmupState .A ≤ 1) := by decide

/-- C9 amended: starting a new warmup cancels the deck's previous poll
interval before arming a new one (the poll slot holds at most one live
poll), but previous safety timeouts stay pending; they are neutralized by
the guard comparing the stored poll id — firing a timeout whose captured
poll id is not the deck's current poll id changes no deck's phase and no
deck's poll.  After two consecutive warmups the first timeout's captured id
is still pending and differs from the live poll's id. -/
theorem stale_timeout_neutralized :
    (∀ (s : EngineState) (d : DeckId) (pid : ℕ),
      (∀ p : Poll, s.warmupPoll d = some p → p.id ≠ pid) →
      (∀ e : DeckId, (timeoutFire d pid s).warmupPhase e = s.warmupPhase e) ∧
      (∀ e : DeckId, (timeoutFire d pid s).warmupPoll e = s.warmupPoll e)) ∧
    (∀ (s : EngineState) (d : DeckId) (p1 p2 : Bool),
      (warmupDeck d p2 (warmupDeck d p1 s)).warmupPoll d =
        some ⟨s.nextTimerId + 1, p2⟩ ∧
      (d, s.nextTimerId) ∈ (warmupDeck d p2 (warmupDeck d p1 s)).pendingTimeouts ∧
      s.nextTimerId + 1 ≠ s.nextTimerId) := by
  constructor
  · intro s d pid hguard
    unfold timeoutFire
    cases hpoll : s.warmupPoll d with
    | none => exact ⟨fun e => rfl, fun e => rfl⟩
    | some q =>
        dsimp only
        rw [if_neg (hguard q hpoll)]
        exact ⟨fun e => rfl, fun e => rfl⟩
  · intro s d p1 p2
    refine ⟨by simp [warmupDeck, updDeck_same], ?_, by omega⟩
    simp [warmupDeck]

/-- C9 amended witness: firing a stale timeout (captured poll id 0) on the
double-warmup state (live poll id 1) leaves every deck's phase and poll
unchanged. -/
theorem stale_timeout_neutralized_witness :
    (∀ e : DeckId, (timeoutFire .A 0 doubleWarmupState).warmupPhase e =
      doubleWarmupState.warmupPhase e) ∧
    (∀ e : DeckId, (timeoutFire .A 0 doubleWarmupState).warmupPoll e =
      doubleWarmupState.warmupPoll e) :=
  stale_timeout_neutralized.1 doubleWarmupState .A 0 (by decide)

section FailureLemmas

lemma mem_insertFailed (f : List String) (v : String) : v ∈ insertFailed f v := by
  unfold insertFailed
  split
  · rename_i h
    simp only [List.contains, List.elem_eq_mem, decide_eq_true_eq] at h
    exact h
  · exact List.mem_append_right _ (by simp)

lemma randIndex_zero (n : ℕ) : randIndex 0 n = 0 := by
  unfold randIndex
  norm_num

lemma handlePlayerError_eq (d : DeckId) (r : ℚ) (b : Bool) (s : EngineState)
    (hv : s.deckVideo d ≠ "") :
    handlePlayerError d r b s =
      loadVideoOnDeck d
        (getRandomVideoId (insertFailed s.failed (s.deckVideo d))
          (some (s.deckVideo d)) r).1 true b
        { s with
          failed := (getRandomVideoId (insertFailed s.failed (s.deckVideo d))
            (some (s.deckVideo d)) r).2,
          deckVideo := updDeck s.deckVideo d
            (getRandomVideoId (insertFailed s.failed (s.deckVideo d))
              (some (s.deckVideo d)) r).1 } := by
  unfold handlePlayerError
  dsimp only
  rw [if_pos hv]

lemma loadVideoOnDeck_deckVideo_self (d : DeckId) (v : String) (sp b : Bool)
    (s : EngineState) (h : s.deckVideo d = v) :
    (loadVideoOnDeck d v sp b s).deckVideo d = v := by
  unfold loadVideoOnDeck warmupDeck
  split
  · exact h
  · dsimp only
    split
    · exact updDeck_same s.deckVideo d v
    · exact updDeck_same s.deckVideo d v

lemma loadVideoOnDeck_warm (d : DeckId) (v : String) (sp : Bool) (s : EngineState)
    (hpl : s.players d = true) :
    (loadVideoOnDeck d v sp false s).warmupPhase d = .loading ∧
    (loadVideoOnDeck d v sp false s).warmupPoll d = some ⟨s.nextTimerId, sp⟩ ∧
    (loadVideoOnDeck d v sp false s).failed = s.failed := by
  unfold loadVideoOnDeck warmupDeck
  rw [if_neg (by simp [hpl])]
  dsimp only
  exact ⟨updDeck_same _ _ _, updDeck_same _ _ _, rfl⟩

end FailureLemmas

/-- The exclusion set right after the failure handler reports deck `d`'s
current id (`failedVideosRef.current.add(failedVid)` under the truthiness
guard). -/
def failedAfterReport (s : EngineState) (d : DeckId) : List String :=
  if s.deckVideo d ≠ "" then insertFailed s.failed (s.deckVideo d) else s.failed

/-- A state in which every catalog id has already failed and deck A holds
the first catalog id — the selector's recovery path is forced. -/
def exhaustedState : EngineState :=
  { initState with failed := VIDEO_MANIFEST, deckVideo := fun _ => "oMBgBMWyHVk" }

/-- C3 counterexample: the catalog has at least 2 entries, yet in the
recovery case (available pool empty, exclusion set cleared) the failure
handler can assign the very id that just failed: from `exhaustedState`,
with the random source at 0, deck A's replacement equals its failed id. -/
theorem handlePlayerError_can_retry_cex :
    2 ≤ VIDEO_MANIFEST.length ∧
    (handlePlayerError .A 0 false exhaustedState).deckVideo .A =
      exhaustedState.deckVideo .A := by
  refine ⟨by decide, ?_⟩
  have hget : getRandomVideoId
      (insertFailed exhaustedState.failed (exhaustedState.deckVideo .A))
      (some (exhaustedState.deckVideo .A)) 0 =
      ("oMBgBMWyHVk", []) := by
    have hav : availableVideos
        (insertFailed exhaustedState.failed (exhaustedState.deckVideo .A))
        (some (exhaustedState.deckVideo .A)) = [] := by decide
    simp only [getRandomVideoId, hav, List.length_nil, if_pos, randIndex_zero]
    decide
  rw [handlePlayerError_eq .A 0 false exhaustedState (by decide), hget]
  exact loadVideoOnDeck_deckVideo_self .A _ true false _
    (updDeck_same exhaustedState.deckVideo .A ("oMBgBMWyHVk", []).1)

/-- C3 amended: the replacement the failure handler assigns to deck `d` is
never the just-failed id provided the post-exclusion pool
`catalog − (exclusionSet ∪ failed id) − failed id` is non-empty; in the
recovery case (pool empty) the replacement is drawn from the full catalog
and may equal the failed id. -/
theorem handlePlayerError_no_immediate_retry (s : EngineState) (d : DeckId)
    (r : ℚ) (b : Bool) (h0 : 0 ≤ r) (h1 : r < 1) (hv : s.deckVideo d ≠ "")
    (hav : availableVideos (insertFailed s.failed (s.deckVideo d))
      (some (s.deckVideo d)) ≠ []) :
    (handlePlayerError d r b s).deckVideo d ≠ s.deckVideo d := by
  rw [handlePlayerError_eq d r b s hv]
  have hspec := (getRandomVideoId_cases (insertFailed s.failed (s.deckVideo d))
    (some (s.deckVideo d)) r h0 h1).2.1 hav
  have hvid := loadVideoOnDeck_deckVideo_self d
    (getRandomVideoId (insertFailed s.failed (s.deckVideo d))
      (some (s.deckVideo d)) r).1 true b
    { s with
      failed := (getRandomVideoId (insertFailed s.failed (s.deckVideo d))
        (some (s.deckVideo d)) r).2,
      deckVideo := updDeck s.deckVideo d
        (getRandomVideoId (insertFailed s.failed (s.deckVideo d))
          (some (s.deckVideo d)) r).1 }
    (updDeck_same _ _ _)
  rw [hvid]
  intro hc
  exact hspec.2.2.1 (by rw [hc])

/-- A state with deck A holding the second catalog id and nothing failed. -/
def errState : EngineState :=
  { initState with deckVideo := fun _ => "OToBXEuYvmo" }

/-- C3 amended witness: from `errState` (nothing failed yet, pool of 17
remaining ids non-empty), the replacement differs from the failed id. -/
theorem handlePlayerError_no_immediate_retry_witness :
    (handlePlayerError .A 0 false errState).deckVideo .A ≠
      errState.deckVideo .A :=
  handlePlayerError_no_immediate_retry errState .A 0 false (by norm_num)
    (by norm_num) (by decide) (by decide)

/-- C4 counterexample: after a port error on deck A, the re-issued warmup's
poll captured `shouldPause = true` (the `loadVideoOnDeck` default), not
`shouldPause = false` as the claim states. -/
theorem handlePlayerError_repauses_cex :
    (handlePlayerError .A 0 false errState).warmupPoll .A = some ⟨0, true⟩ ∧
    (handlePlayerError .A 0 false errState).warmupPoll .A ≠ some ⟨0, false⟩ := by
  have h1 : (handlePlayerError .A 0 false errState).warmupPoll .A = some ⟨0, true⟩ := by
    rw [handlePlayerError_eq .A 0 false errState (by decide)]
    exact (loadVideoOnDeck_warm .A _ true _ rfl).2.1
  exact ⟨h1, by rw [h1]; simp⟩

/-- C4 amended: on a port-reported error for deck `d` (with a non-empty
last id, a bound player, a non-throwing reload and a non-empty
post-exclusion pool), the failure handler adds `d`'s last assigned id to
the exclusion set, assigns a replacement drawn from the pool excluding that
id, and re-invokes warmup for `d` — with `shouldPause = true` (the
background-deck path), not `false`. -/
theorem handlePlayerError_excludes_and_rewarns (s : EngineState) (d : DeckId)
    (r : ℚ) (h0 : 0 ≤ r) (h1 : r < 1) (hv : s.deckVideo d ≠ "")
    (hpl : s.players d = true)
    (hav : availableVideos (insertFailed s.failed (s.deckVideo d))
      (some (s.deckVideo d)) ≠ []) :
    s.deckVideo d ∈ (handlePlayerError d r false s).failed ∧
    (handlePlayerError d r false s).deckVideo d ∈
      availableVideos (insertFailed s.failed (s.deckVideo d))
        (some (s.deckVideo d)) ∧
    (handlePlayerError d r false s).warmupPhase d = .loading ∧
    (handlePlayerError d r false s).warmupPoll d = some ⟨s.nextTimerId, true⟩ := by
  rw [handlePlayerError_eq d r false s hv]
  have hspec := (getRandomVideoId_cases (insertFailed s.failed (s.deckVideo d))
    (some (s.deckVideo d)) r h0 h1).2.1 hav
  have hwarm := loadVideoOnDeck_warm d
    (getRandomVideoId (insertFailed s.failed (s.deckVideo d))
      (some (s.deckVideo d)) r).1 true
    { s with
      failed := (getRandomVideoId (insertFailed s.failed (s.deckVideo d))
        (some (s.deckVideo d)) r).2,
      deckVideo := updDeck s.deckVideo d
        (getRandomVideoId (insertFailed s.failed (s.deckVideo d))
          (some (s.deckVideo d)) r).1 }
    hpl
  have hvid := loadVideoOnDeck_deckVideo_self d
    (getRandomVideoId (insertFailed s.failed (s.deckVideo d))
      (some (s.deckVideo d)) r).1 true false
    { s with
      failed := (getRandomVideoId (insertFailed s.failed (s.deckVideo d))
        (some (s.deckVideo d)) r).2,
      deckVideo := updDeck s.deckVideo d
        (getRandomVideoId (insertFailed s.failed (s.deckVideo d))
          (some (s.deckVideo d)) r).1 }
    (updDeck_same _ _ _)
  refine ⟨?_, ?_, hwarm.1, hwarm.2.1⟩
  · rw [hwarm.2.2]
    show s.deckVideo d ∈ (getRandomVideoId (insertFailed s.failed (s.deckVideo d))
      (some (s.deckVideo d)) r).2
    rw [hspec.2.2.2]
    exact mem_insertFailed s.failed (s.deckVideo d)
  · rw [hvid]
    exact hspec.1

/-- C4 amended witness: concrete run of the failure handler on `errState`. -/
theorem handlePlayerError_excludes_and_rewarns_witness :
    errState.deckVideo .A ∈ (handlePlayerError .A 0 false errState).failed ∧
    (handlePlayerError .A 0 false errState).deckVideo .A ∈
      availableVideos (insertFailed errState.failed (errState.deckVideo .A))
        (some (errState.deckVideo .A)) ∧
    (handlePlayerError .A 0 false errState).warmupPhase .A = .loading ∧
    (handlePlayerError .A 0 false errState).warmupPoll .A =
      some ⟨errState.nextTimerId, true⟩ :=
  handlePlayerError_excludes_and_rewarns errState .A 0 (by norm_num)
    (by norm_num) (by decide) rfl (by decide)

/-- C5 counterexample: at a positive duration of 4 seconds (shorter than
twice the skip margin) and random sample 0, the issued seek offset (3) lies
outside the claimed window `[skip, duration − skip] = [3, 1]`, which is
empty — so the claim fails for every offset. -/
theorem seekOffset_outside_window_cex :
    (0:ℚ) < 4 ∧ (0:ℚ) ≤ 0 ∧ (0:ℚ) < 1 ∧
    ¬ (SKIP_SECONDS ≤ seekOffset 4 0 ∧ seekOffset 4 0 ≤ 4 - SKIP_SECONDS) := by
  refine ⟨by norm_num, le_refl 0, by norm_num, ?_⟩
  intro h
  have h2 := h.2
  rw [show seekOffset 4 0 = 3 by norm_num [seekOffset, SKIP_SECONDS]] at h2
  norm_num [SKIP_SECONDS] at h2

/-- C5 amended: whenever the reported duration is at least twice the skip
margin (so the window `[skip, d − skip]` is non-empty), the seek offset
computed by the loading branch lies inside `[skip, d − skip]`, for every
random sample in `[0, 1)`. -/
theorem seekOffset_in_window (d r : ℚ) (h0 : 0 ≤ r) (h1 : r < 1)
    (hd : 2 * SKIP_SECONDS ≤ d) :
    SKIP_SECONDS ≤ seekOffset d r ∧ seekOffset d r ≤ d - SKIP_SECONDS := by
  unfold seekOffset
  dsimp only
  constructor
  · exact le_max_left _ _
  · apply max_le
    · rw [SKIP_SECONDS] at hd ⊢
      linarith
    · rcases le_total (d - SKIP_SECONDS) (SKIP_SECONDS + 1) with hcase | hcase
      · rw [max_eq_left hcase, SKIP_SECONDS] at *
        nlinarith
      · rw [max_eq_right hcase, SKIP_SECONDS] at *
        rcases le_total d 11 with hc2 | hc2
        · nlinarith [mul_nonneg h0 (by linarith : (0:ℚ) ≤ 11 - d)]
        · nlinarith [mul_nonneg (by linarith : (0:ℚ) ≤ 1 - r)
            (by linarith : (0:ℚ) ≤ d - 11)]

/-- C5 amended witness: duration 20, random sample 1/2. -/
theorem seekOffset_in_window_witness :
    SKIP_SECONDS ≤ seekOffset 20 (mkRat 1 2) ∧
    seekOffset 20 (mkRat 1 2) ≤ 20 - SKIP_SECONDS :=
  seekOffset_in_window 20 (mkRat 1 2) (by norm_num) (by norm_num)
    (by norm_num [SKIP_SECONDS])

/-- C10: if the port's load call throws while loading video `v` onto a bound
deck `d`, the deck's recorded current video id has nevertheless already been
updated to `v`, while no warmup was started: every deck's warmup phase and
poll are unchanged and no timer was armed — the operation is not atomic,
state is changed on error. -/
theorem loadVideoOnDeck_nonatomic_on_throw (s : EngineState) (d : DeckId)
    (v : String) (sp : Bool) (hpl : s.players d = true) :
    (loadVideoOnDeck d v sp true s).deckVideo d = v ∧
    (∀ e : DeckId, (loadVideoOnDeck d v sp true s).warmupPhase e = s.warmupPhase e) ∧
    (∀ e : DeckId, (loadVideoOnDeck d v sp true s).warmupPoll e = s.warmupPoll e) ∧
    (loadVideoOnDeck d v sp true s).pendingTimeouts = s.pendingTimeouts ∧
    (loadVideoOnDeck d v sp true s).nextTimerId = s.nextTimerId := by
  unfold loadVideoOnDeck
  rw [if_neg (by simp [hpl])]
  dsimp only
  exact ⟨updDeck_same _ _ _, fun e => rfl, fun e => rfl, rfl, rfl⟩

/-- C10 witness: a throwing load of a fresh id onto deck A of the initial
state updates the recorded id but starts no warmup. -/
theorem loadVideoOnDeck_nonatomic_on_throw_witness :
    (loadVideoOnDeck .A "uHpDotOdJbw" true true initState).deckVideo .A =
      "uHpDotOdJbw" ∧
    (∀ e : DeckId, (loadVideoOnDeck .A "uHpDotOdJbw" true true initState).warmupPhase e =
      initState.warmupPhase e) ∧
    (∀ e : DeckId, (loadVideoOnDeck .A "uHpDotOdJbw" true true initState).warmupPoll e =
      initState.warmupPoll e) ∧
    (loadVideoOnDeck .A "uHpDotOdJbw" true true initState).pendingTimeouts =
      initState.pendingTimeouts ∧
    (loadVideoOnDeck .A "uHpDotOdJbw" true true initState).nextTimerId =
      initState.nextTimerId :=
  loadVideoOnDeck_nonatomic_on_throw initState .A "uHpDotOdJbw" true rfl

end DesertHaze
